import Mathlib

/-!
Verification of the suburb price join and choropleth color-bucketing pipeline
of the Melbourne-SQM repository (src/src/RealDataMap.tsx), against its
natural-language specification.

The embedding models JavaScript strings as Lean `String`, JavaScript numbers
as an inductive `JSNum` (an exact rational or NaN), records and GeoJSON
features as structures, and the suburb lookup object as a function
`String → Option SuburbData` updated by insertion.
-/

namespace MelbourneSQM

/-! Model of the JavaScript string primitives used by RealDataMap.tsx. -/

/-- Whitespace characters: the ASCII core of both the regex class used in the
directional-strip patterns and of the set removed by trim. -/
def wsChar (c : Char) : Bool := c = ' ' || c = '\t' || c = '\n' || c = '\r'

/-- Model of JavaScript toLowerCase, restricted to basic latin letters. -/
def jsLowerStr (s : String) : String := ⟨s.data.map Char.toLower⟩

/-- Drop leading whitespace. -/
def trimLeft (l : List Char) : List Char := l.dropWhile wsChar

/-- Drop trailing whitespace. -/
def trimRight (l : List Char) : List Char := (l.reverse.dropWhile wsChar).reverse

/-- Model of JavaScript trim: remove leading and trailing whitespace. -/
def jsTrim (s : String) : String := ⟨trimRight (trimLeft s.data)⟩

/-- The name normalization used on both sides of the join in
RealDataMap.tsx (lines 111 and 146): toLowerCase() followed by trim(). -/
def normName (s : String) : String := jsTrim (jsLowerStr s)

/-- A JavaScript number: NaN or an exact rational. -/
inductive JSNum where
  | nan : JSNum
  | num : ℚ → JSNum
deriving DecidableEq

/-- JavaScript truthiness of a possibly-undefined number: undefined, NaN and 0
are falsy, everything else is truthy. -/
def numTruthy : Option JSNum → Bool
  | none => false
  | some JSNum.nan => false
  | some (JSNum.num q) => decide (q ≠ 0)

/-- JavaScript `a || b` for a possibly-undefined string `a`: returns `a` when
it is present and non-empty, otherwise `b`. -/
def jsOrStr (a : Option String) (b : String) : String :=
  match a with
  | some s => if s = "" then b else s
  | none => b

/-! Model of the two anchored regex replaces in RealDataMap.tsx lines 114-121:
name.replace of a leading directional token and of a trailing directional
token. -/

/-- Match a token at the head of a character list followed by at least one
whitespace character; on success return the remainder with the token and the
whole whitespace run removed (the regex consumes a greedy run there). -/
def dropTok : List Char → List Char → Option (List Char)
  | [], cs =>
    match cs with
    | [] => none
    | c :: rest => if wsChar c then some (List.dropWhile wsChar (c :: rest)) else none
  | _ :: _, [] => none
  | a :: t, c :: rest => if c = a then dropTok t rest else none

/-- Match a token at the end of a character list preceded by at least one
whitespace character; on success remove the token and the whitespace run. -/
def dropTokEnd (t l : List Char) : Option (List Char) :=
  match dropTok t.reverse l.reverse with
  | some r => some r.reverse
  | none => none

/-- Try each token in turn; the first that matches rewrites the list, and if
none matches the list is unchanged. -/
def applyToks (f : List Char → List Char → Option (List Char)) :
    List (List Char) → List Char → List Char
  | [], l => l
  | t :: ts, l =>
    match f t l with
    | some r => r
    | none => applyToks f ts l

/-- Alternatives of the leading regex: north, south, east, west, port. -/
def leadToks : List (List Char) :=
  ["north".data, "south".data, "east".data, "west".data, "port".data]

/-- Alternatives of the trailing regex: north, south, east, west. -/
def trailToks : List (List Char) :=
  ["north".data, "south".data, "east".data, "west".data]

/-- Remove a leading directional token and its following whitespace run. -/
def stripLeading (s : String) : String := ⟨applyToks dropTok leadToks s.data⟩

/-- Remove a trailing directional token and its preceding whitespace run. -/
def stripTrailing (s : String) : String := ⟨applyToks dropTokEnd trailToks s.data⟩

/-- The simpleName computation of RealDataMap.tsx lines 115-117: the leading
replace is applied first and the trailing replace is then applied to its
result. -/
def simpleName (s : String) : String := stripTrailing (stripLeading s)

/-! The data model: one CSV row and one GeoJSON feature. -/

/-- One row of the price CSV, as described by the SuburbData interface:
LGA, Suburb, Estimated Block Size (sqm), Median Price, $/sqm. -/
structure SuburbData where
  LGA : String
  Suburb : String
  blockSize : String
  medianPrice : String
  sqm : String
deriving DecidableEq

/-- The suburb lookup object: a partial map from string keys to rows.
A key holding an undefined value and an absent key are both `none`, which
matches JavaScript property lookup on plain objects. -/
abbrev SMap := String → Option SuburbData

/-- The empty lookup object. -/
def emptySMap : SMap := fun _ => none

/-- Assign a value to one key of the lookup object. -/
def mapInsert (m : SMap) (k : String) (v : Option SuburbData) : SMap :=
  fun q => if q = k then v else m q

/-- One iteration of the forEach at RealDataMap.tsx lines 110-122: register
the normalized suburb name, and additionally the directional-stripped form
when it differs. -/
def insertRecord (m : SMap) (suburb : SuburbData) : SMap :=
  let name := normName suburb.Suburb
  let m1 := mapInsert m name (some suburb)
  let simple := simpleName name
  if simple ≠ name then mapInsert m1 simple (some suburb) else m1

/-- The suburb map built by the forEach over all CSV rows, in source order. -/
def buildSuburbMap (data : List SuburbData) : SMap :=
  data.foldl insertRecord emptySMap

/-- The Array.find used for the manual mappings at lines 125-126. -/
def findByLowerName (data : List SuburbData) (target : String) : Option SuburbData :=
  data.find? (fun s => jsLowerStr s.Suburb == target)

/-- The full lookup object: the forEach map plus the two manual assignments
for williamstown and richmond (which may assign undefined). -/
def suburbMapFull (data : List SuburbData) : SMap :=
  let m := buildSuburbMap data
  let m1 := mapInsert m "williamstown" (findByLowerName data "williamstown")
  mapInsert m1 "richmond" (findByLowerName data "richmond")

/-- The properties object of one GeoJSON feature: the three possible name
keys, the five fields the join may attach, and the remaining untouched
properties. -/
structure FeatureProps where
  vic_loca_2 : Option String
  name : Option String
  VIC_LOCA_2 : Option String
  price_sqm : Option JSNum
  median_price : Option String
  block_size : Option String
  lga : Option String
  matched_suburb : Option String
  other : List (String × String)
deriving DecidableEq

/-- One GeoJSON feature: type tag, optional id, properties, opaque geometry. -/
structure Feature where
  typ : String
  id : Option String
  properties : FeatureProps
  geometry : String
deriving DecidableEq

/-- The name probe at lines 141-143 and 210 and 239:
properties.vic_loca_2 || properties.name || properties.VIC_LOCA_2 || ''. -/
def suburbNameOf (p : FeatureProps) : String :=
  jsOrStr p.vic_loca_2 (jsOrStr p.name (jsOrStr p.VIC_LOCA_2 ""))

/-- The lookup key derived from a feature at line 146:
suburbName.toLowerCase().trim(). -/
def lookupKeyOf (f : Feature) : String := normName (suburbNameOf f.properties)

/-! Price parsing, line 160:
pricePerSqmStr ? parseInt(pricePerSqmStr.replace(/[^0-9]/g, ''), 10) : 0. -/

/-- The replace(/[^0-9]/g, '') step: keep only the digit characters. -/
def digitsOnly (s : String) : String := ⟨s.data.filter Char.isDigit⟩

/-- Base-10 value of a digit list. -/
def digitsVal (l : List Char) : ℕ := l.foldl (fun a c => 10 * a + (c.toNat - 48)) 0

/-- parseInt on an all-digit string: NaN when empty, the value otherwise. -/
def parseIntOfDigits (s : String) : JSNum :=
  if s.data = [] then JSNum.nan else JSNum.num ((digitsVal s.data : ℕ) : ℚ)

/-- The whole price-parsing expression of line 160, including the falsy
guard that turns an empty source string into 0. -/
def parsePriceField (s : String) : JSNum :=
  if s = "" then JSNum.num 0 else parseIntOfDigits (digitsOnly s)

/-- Attach the five joined fields of lines 165-175 to a feature, spreading
the existing properties. -/
def attachRecord (f : Feature) (s : SuburbData) : Feature :=
  { f with properties :=
    { f.properties with
        price_sqm := some (parsePriceField s.sqm)
        median_price := some s.medianPrice
        block_size := some s.blockSize
        lga := some s.LGA
        matched_suburb := some s.Suburb } }

/-- The per-feature body of the merge at lines 139-179: a single lookup of
the normalized feature name; attach on a hit, return the feature unchanged
on a miss. -/
def mergeFeature (m : SMap) (f : Feature) : Feature :=
  match m (lookupKeyOf f) with
  | some s => attachRecord f s
  | none => f

/-- The Joiner: map the merge over the whole feature collection using the
full lookup object built from the CSV rows. -/
def joinAll (data : List SuburbData) (feats : List Feature) : List Feature :=
  feats.map (mergeFeature (suburbMapFull data))

/-- Projection of the attached prices of a feature list. -/
def extractPrices (feats : List Feature) : List (Option JSNum) :=
  feats.map (fun f => f.properties.price_sqm)

/-! The bucketizer, lines 195-206. -/

/-- getColor: the sentinel for falsy or NaN input, then the threshold chain. -/
def getColor : Option JSNum → String
  | none => "#cccccc"
  | some JSNum.nan => "#cccccc"
  | some (JSNum.num price) =>
    if price = 0 then "#cccccc"
    else if price < 3000 then "#1a9850"
    else if price < 4000 then "#91cf60"
    else if price < 5000 then "#d9ef8b"
    else if price < 6000 then "#fee08b"
    else if price < 7000 then "#fc8d59"
    else if price < 8000 then "#d73027"
    else if price < 10000 then "#bd0026"
    else if price < 12000 then "#800026"
    else "#4a0018"

/-! The style and popup functions, lines 209-296. -/

/-- The style attributes returned by featureStyle. -/
structure LeafletStyle where
  fillColor : String
  weight : ℚ
  opacity : ℚ
  color : String
  dashArray : String
  fillOpacity : ℚ
deriving DecidableEq

/-- featureStyle, lines 209-234: the Yarraville special case colors by the
hardcoded price 2680; otherwise the joined price colors the feature when
truthy and the sentinel is used when not. -/
def featureStyle (f : Feature) : LeafletStyle :=
  let suburbName := suburbNameOf f.properties
  if jsLowerStr suburbName = "yarraville" then
    { fillColor := getColor (some (JSNum.num 2680)), weight := 1, opacity := 1,
      color := "white", dashArray := "3", fillOpacity := mkRat 7 10 }
  else
    let price := f.properties.price_sqm
    { fillColor := if numTruthy price then getColor price else "#cccccc",
      weight := 1, opacity := 1,
      color := "white", dashArray := "3", fillOpacity := mkRat 7 10 }

/-- Group a natural number with commas every three digits, as
toLocaleString does for the default locale. -/
def chunk3 : List Char → List Char
  | a :: b :: c :: rest@(_ :: _) => a :: b :: c :: ',' :: chunk3 rest
  | l => l

/-- Decimal rendering of a natural number with comma grouping. -/
def groupNat (n : ℕ) : String := ⟨(chunk3 (Nat.repr n).data.reverse).reverse⟩

/-- The formattedPrice expression of line 278:
a dollar sign plus Math.round(price).toLocaleString(). -/
def formatPrice : JSNum → String
  | JSNum.nan => "$NaN"
  | JSNum.num q =>
    let r : ℤ := Int.floor (q + mkRat 1 2)
    if r < 0 then "$-" ++ groupNat r.natAbs else "$" ++ groupNat r.natAbs

/-- The fixed Yarraville popup template of lines 259-266. -/
def yarravillePopup : String :=
  "\n        <div class=\"popup-content\">\n          <h3>YARRAVILLE</h3>\n          <p><strong>Median House Price:</strong> $1,125,500</p>\n          <p><strong>Estimated Block Size:</strong> 420 sqm</p>\n          <p><strong>Price per sqm:</strong> $2,680</p>\n        </div>\n      "

/-- The popup template of lines 284-291 for a feature with a truthy price. -/
def regularPopup (suburbName formattedPrice medianPrice blockSize : String) : String :=
  "\n        <div class=\"popup-content\">\n          <h3>" ++ suburbName ++
  "</h3>\n          <p><strong>Median House Price:</strong> " ++ medianPrice ++
  "</p>\n          <p><strong>Estimated Block Size:</strong> " ++ blockSize ++
  " sqm</p>\n          <p><strong>Price per sqm:</strong> " ++ formattedPrice ++
  "</p>\n        </div>\n      "

/-- The popup of line 294 for a feature without price data. -/
def noDataPopup (suburbName : String) : String :=
  "<div class=\"popup-content\"><h3>" ++ suburbName ++
  "</h3><p>No price data available</p></div>"

/-- The popup selection of onEachFeature, lines 237-296: the Yarraville
special case first, then the truthy-price popup, then the no-data popup. -/
def popupContent (f : Feature) : String :=
  let props := f.properties
  let suburbName := suburbNameOf props
  if jsLowerStr suburbName = "yarraville" then yarravillePopup
  else if numTruthy props.price_sqm then
    match props.price_sqm with
    | some p =>
      regularPopup suburbName (formatPrice p)
        (jsOrStr props.median_price "N/A") (jsOrStr props.block_size "N/A")
    | none => noDataPopup suburbName
  else noDataPopup suburbName

/-! Definitions written from the specification's words, for refinement
comparison with the code-derived definitions above. -/

/-- The canonical reference scale of spec section 4.3: ordered
(exclusiveUpperBound, color) pairs from lowest to highest. -/
def specScale : List (ℚ × String) :=
  [(3000, "#1a9850"), (4000, "#91cf60"), (5000, "#d9ef8b"), (6000, "#fee08b"),
   (7000, "#fc8d59"), (8000, "#d73027"), (10000, "#bd0026"), (12000, "#800026")]

/-- Scan of the ordered scale as the spec words it: return the color of the
first bound strictly greater than the price, and the final fixed highest
color when the price exceeds every bound. -/
def scanScale : List (ℚ × String) → ℚ → String
  | [], _ => "#4a0018"
  | (bound, color) :: rest, price =>
    if price < bound then color else scanScale rest price

/-- The bucket color of a positive price per the spec's scan description. -/
def specBucket (price : ℚ) : String := scanScale specScale price

/-- Expense rank of a color on the canonical scale: position from cheapest
to most expensive, with the sentinel and unknown colors ranked past the end. -/
def colorRank (c : String) : ℕ :=
  if c = "#1a9850" then 0
  else if c = "#91cf60" then 1
  else if c = "#d9ef8b" then 2
  else if c = "#fee08b" then 3
  else if c = "#fc8d59" then 4
  else if c = "#d73027" then 5
  else if c = "#bd0026" then 6
  else if c = "#800026" then 7
  else if c = "#4a0018" then 8
  else 9

/-- Collapse every run of whitespace characters to a single space, as the
spec's normalizer description requires. -/
def collapseWs : List Char → List Char
  | [] => []
  | [c] => if wsChar c then [' '] else [c]
  | c :: d :: rest =>
    if wsChar c && wsChar d then collapseWs (d :: rest)
    else (if wsChar c then ' ' else c) :: collapseWs (d :: rest)

/-- The normalizer of spec section 4.1: lower-case the whole string, collapse
runs of whitespace to a single space, trim leading and trailing space. -/
def specNormalize (s : String) : String :=
  ⟨trimRight (trimLeft (collapseWs (s.data.map Char.toLower)))⟩

/-- Keep the digit and decimal-point characters, as the parsing description
of spec section 4.2.1 words it. -/
def keepDigitsDot (s : String) : List Char :=
  s.data.filter (fun c => c.isDigit || c = '.')

/-- Parse a digits-and-dots remainder as a floating-point number, as
parseFloat would: integer part, then a fractional part after the first
decimal point; NaN when no digits are readable. -/
def parseDecimalDigits (l : List Char) : JSNum :=
  let intPart := l.takeWhile Char.isDigit
  let rest := l.dropWhile Char.isDigit
  match rest with
  | '.' :: frac0 =>
    let frac := frac0.takeWhile Char.isDigit
    if intPart = [] ∧ frac = [] then JSNum.nan
    else JSNum.num
      (mkRat (digitsVal intPart * 10 ^ frac.length + digitsVal frac) (10 ^ frac.length))
  | _ => if intPart = [] then JSNum.nan else JSNum.num ((digitsVal intPart : ℕ) : ℚ)

/-- The price parser of spec section 4.2.1: strip every character that is not
a digit or decimal point, then parse the remainder as a number. -/
def specParsePrice (s : String) : JSNum := parseDecimalDigits (keepDigitsDot s)

/-! Concrete sample records and features used by the counterexamples and
witnesses. -/

/-- A price record named Melbourne with price string $12,500. -/
def melbRec : SuburbData :=
  { LGA := "Melbourne", Suburb := "Melbourne", blockSize := "300",
    medianPrice := "$1,500,000", sqm := "$12,500" }

/-- A price record named North Melbourne with price string $9,000. -/
def northMelbRec : SuburbData :=
  { LGA := "Melbourne", Suburb := "North Melbourne", blockSize := "250",
    medianPrice := "$1,200,000", sqm := "$9,000" }

/-- A price record named Richmond whose price string is empty. -/
def richEmptyRec : SuburbData :=
  { LGA := "Yarra", Suburb := "Richmond", blockSize := "280",
    medianPrice := "$1,450,000", sqm := "" }

/-- A feature whose only name property is the given string and that carries
no price fields yet. -/
def mkFeature (nm : String) : Feature :=
  { typ := "Feature", id := none,
    properties :=
      { vic_loca_2 := some nm, name := none, VIC_LOCA_2 := none,
        price_sqm := none, median_price := none, block_size := none,
        lga := none, matched_suburb := none, other := [] },
    geometry := "POLYGON" }

/-- A geometry feature named North Melbourne. -/
def northMelbFeature : Feature := mkFeature "North Melbourne"

/-- A geometry feature named Melbourne. -/
def melbFeature : Feature := mkFeature "Melbourne"

/-- A geometry feature named Richmond. -/
def richFeature : Feature := mkFeature "Richmond"

/-- A geometry feature named Nowhere Special, matching no record. -/
def nowhereFeature : Feature := mkFeature "Nowhere Special"

/-- A geometry feature named Yarraville carrying a joined price of 9999. -/
def yarraFeature : Feature :=
  { typ := "Feature", id := none,
    properties :=
      { vic_loca_2 := some "Yarraville", name := none, VIC_LOCA_2 := none,
        price_sqm := some (JSNum.num 9999), median_price := none,
        block_size := none, lga := none, matched_suburb := none, other := [] },
    geometry := "POLYGON" }

/-! Helper lemmas about the string primitives. -/

/-- Packing a valid codepoint and unpacking it is the identity. -/
theorem char_toNat_ofNat (n : Nat) (h : n.isValidChar) : (Char.ofNat n).toNat = n := by
  rw [Char.ofNat, dif_pos h]
  rfl

/-- A character outside the four whitespace codepoints is not whitespace. -/
theorem wsChar_false (c : Char) (h9 : c.toNat ≠ 9) (h10 : c.toNat ≠ 10)
    (h13 : c.toNat ≠ 13) (h32 : c.toNat ≠ 32) : wsChar c = false := by
  unfold wsChar
  have e1 : c ≠ ' ' := fun h => h32 (by rw [h]; rfl)
  have e2 : c ≠ '\t' := fun h => h9 (by rw [h]; rfl)
  have e3 : c ≠ '\n' := fun h => h10 (by rw [h]; rfl)
  have e4 : c ≠ '\r' := fun h => h13 (by rw [h]; rfl)
  simp [e1, e2, e3, e4]

/-- Lowercasing does not change whether a character is whitespace. -/
theorem toLower_ws (c : Char) : wsChar (Char.toLower c) = wsChar c := by
  unfold Char.toLower
  by_cases h : c.toNat ≥ 65 ∧ c.toNat ≤ 90
  · rw [if_pos h]
    have hv : (c.toNat + 32).isValidChar := Or.inl (by omega)
    have h32 : (Char.ofNat (c.toNat + 32)).toNat = c.toNat + 32 := char_toNat_ofNat _ hv
    rw [wsChar_false _ (by omega) (by omega) (by omega) (by omega),
        wsChar_false _ (by omega) (by omega) (by omega) (by omega)]
  · rw [if_neg h]

/-- Lowercasing is idempotent on characters. -/
theorem toLower_idem (c : Char) : c.toLower.toLower = c.toLower := by
  unfold Char.toLower
  by_cases h : c.toNat ≥ 65 ∧ c.toNat ≤ 90
  · rw [if_pos h]
    have hv : (c.toNat + 32).isValidChar := Or.inl (by omega)
    rw [char_toNat_ofNat _ hv, if_neg (by omega)]
  · rw [if_neg h, if_neg h]

/-- dropWhile is idempotent. -/
theorem dropWhile_self (p : Char → Bool) (l : List Char) :
    (l.dropWhile p).dropWhile p = l.dropWhile p := by
  induction l with
  | nil => rfl
  | cons a t ih =>
    cases ha : p a with
    | true => simp [List.dropWhile_cons, ha, ih]
    | false => simp [List.dropWhile_cons, ha]

/-- dropWhile passes over an appended element that fails the predicate. -/
theorem dropWhile_append_singleton (p : Char → Bool) (c : Char) (h : p c = false)
    (xs : List Char) : (xs ++ [c]).dropWhile p = xs.dropWhile p ++ [c] := by
  induction xs with
  | nil => simp [List.dropWhile, h]
  | cons a t ih => cases ha : p a <;> simp [List.dropWhile_cons, ha, ih]

/-- A list fixed by trimLeft is fixed by trimLeft after trimRight. -/
theorem trimLeft_trimRight (l : List Char) (h : trimLeft l = l) :
    trimLeft (trimRight l) = trimRight l := by
  cases l with
  | nil => rfl
  | cons c t =>
    have hc : wsChar c = false := by
      cases hw : wsChar c with
      | false => rfl
      | true =>
        exfalso
        unfold trimLeft at h
        rw [List.dropWhile_cons_of_pos hw] at h
        have hlen := congrArg List.length h
        have hle := (List.dropWhile_sublist (l := t) wsChar).length_le
        simp at hlen
        omega
    unfold trimRight
    rw [List.reverse_cons, dropWhile_append_singleton wsChar c hc,
        List.reverse_append]
    unfold trimLeft
    rw [List.reverse_cons]
    simp [List.dropWhile_cons, hc]

/-- trimRight is idempotent. -/
theorem trimRight_self (l : List Char) : trimRight (trimRight l) = trimRight l := by
  unfold trimRight
  rw [List.reverse_reverse, dropWhile_self]

/-- The full trim is idempotent. -/
theorem trim_trim (l : List Char) :
    trimRight (trimLeft (trimRight (trimLeft l))) = trimRight (trimLeft l) := by
  rw [trimLeft_trimRight (trimLeft l) (dropWhile_self wsChar l), trimRight_self]

/-- Lowercasing commutes with dropping leading whitespace. -/
theorem dropWhile_ws_map_toLower (l : List Char) :
    (l.map Char.toLower).dropWhile wsChar = (l.dropWhile wsChar).map Char.toLower := by
  have hp : (wsChar ∘ Char.toLower) = wsChar := funext toLower_ws
  rw [List.dropWhile_map, hp]

/-- Lowercasing twice is lowercasing once. -/
theorem map_toLower_toLower (l : List Char) :
    (l.map Char.toLower).map Char.toLower = l.map Char.toLower := by
  rw [List.map_map]
  exact List.map_congr_left (fun c _ => toLower_idem c)

/-- Lowercasing commutes with the full trim. -/
theorem map_toLower_trim (l : List Char) :
    (trimRight (trimLeft l)).map Char.toLower =
      trimRight (trimLeft (l.map Char.toLower)) := by
  unfold trimRight trimLeft
  rw [List.map_reverse, ← dropWhile_ws_map_toLower, List.map_reverse,
      ← dropWhile_ws_map_toLower]

/-- For a nonzero rational argument getColor is the plain threshold chain. -/
theorem getColor_num (q : ℚ) (h : ¬(q = 0)) :
    getColor (some (JSNum.num q)) =
      (if q < 3000 then "#1a9850"
       else if q < 4000 then "#91cf60"
       else if q < 5000 then "#d9ef8b"
       else if q < 6000 then "#fee08b"
       else if q < 7000 then "#fc8d59"
       else if q < 8000 then "#d73027"
       else if q < 10000 then "#bd0026"
       else if q < 12000 then "#800026"
       else "#4a0018") := by
  simp only [getColor, h, if_false]

/-! Claim theorems. -/

/-- C2: the bucketizer is total; for null, undefined, zero and NaN inputs it
returns the sentinel color #cccccc, and for every positive price it returns
exactly the color obtained by scanning the canonical ordered scale for the
first exclusive upper bound strictly greater than the price, with #4a0018
when the price exceeds every bound. -/
theorem C2_bucketizer_matches_canonical_scale :
    (∀ q : ℚ, 0 < q → getColor (some (JSNum.num q)) = specBucket q) ∧
    getColor none = "#cccccc" ∧
    getColor (some JSNum.nan) = "#cccccc" ∧
    getColor (some (JSNum.num 0)) = "#cccccc" := by
  refine ⟨?_, rfl, rfl, by decide⟩
  intro q hq
  have h0 : ¬(q = 0) := fun h => absurd (h ▸ hq) (lt_irrefl 0)
  rw [getColor_num q h0]
  simp only [specBucket, specScale, scanScale]

/-- Witness for C2 at the concrete positive price 3500. -/
theorem C2_bucketizer_matches_canonical_scale_witness :
    getColor (some (JSNum.num 3500)) = specBucket 3500 :=
  C2_bucketizer_matches_canonical_scale.1 3500 (by norm_num)

/-- C5 counterexample: on the input "north melbourne west" the code removes
both the leading and the trailing directional token in one call, producing
"melbourne", which is neither the input, nor the input with only the leading
token removed, nor the input with only the trailing token removed. -/
theorem C5_counterexample_both_tokens_stripped :
    simpleName "north melbourne west" = "melbourne" ∧
    stripLeading "north melbourne west" = "melbourne west" ∧
    stripTrailing "north melbourne west" = "north melbourne" ∧
    ("melbourne" : String) ≠ "north melbourne west" ∧
    ("melbourne" : String) ≠ "melbourne west" ∧
    ("melbourne" : String) ≠ "north melbourne" := by decide

/-- C5 amended: stripDirectional first removes one leading token from
north/south/east/west/port followed by whitespace when present, and then
removes one trailing token from north/south/east/west preceded by whitespace
from the result when present — both may fire in the same call; when neither
pattern matches the input is returned unchanged, and the two quoted examples
hold. -/
theorem C5_sequential_strip :
    (∀ s : String, simpleName s = stripTrailing (stripLeading s)) ∧
    (∀ s : String, stripLeading s = s → stripTrailing s = s → simpleName s = s) ∧
    simpleName "north melbourne" = "melbourne" ∧
    simpleName "melbourne" = "melbourne" := by
  refine ⟨fun s => rfl, ?_, by decide, by decide⟩
  intro s h1 h2
  unfold simpleName
  rw [h1, h2]

/-- Witness for C5 on a name with no directional tokens. -/
theorem C5_sequential_strip_witness : simpleName "brunswick" = "brunswick" :=
  C5_sequential_strip.2.1 "brunswick" (by decide) (by decide)

/-- C7 counterexample: the code's normalization lower-cases and trims but
does not collapse internal whitespace runs, so on "A  B" it differs from the
spec's lower-case plus collapse plus trim description. -/
theorem C7_counterexample_no_collapse :
    normName "A  B" = "a  b" ∧
    specNormalize "A  B" = "a b" ∧
    ("a  b" : String) ≠ "a b" := by decide

/-- C7 amended: the code's normalization equals lower-casing the whole string
followed by trimming leading and trailing whitespace, with no collapsing of
internal whitespace; this normalization is idempotent. -/
theorem C7_normalize_idempotent (s : String) : normName (normName s) = normName s := by
  have h : ∀ l : List Char,
      trimRight (trimLeft (List.map Char.toLower (trimRight (trimLeft (List.map Char.toLower l))))) =
        trimRight (trimLeft (List.map Char.toLower l)) := by
    intro l
    rw [map_toLower_trim, map_toLower_toLower, trim_trim]
  exact congrArg String.mk (h s.data)

/-- C9: a geometry whose normalized name misses the lookup map is returned
by the merge unchanged, with every original property intact. -/
theorem C9_miss_leaves_feature_unchanged (data : List SuburbData) (f : Feature)
    (h : suburbMapFull data (lookupKeyOf f) = none) :
    mergeFeature (suburbMapFull data) f = f := by
  unfold mergeFeature
  rw [h]

/-- Witness for C9: the Nowhere Special feature misses an empty data set and
is returned unchanged. -/
theorem C9_miss_leaves_feature_unchanged_witness :
    mergeFeature (suburbMapFull []) nowhereFeature = nowhereFeature :=
  C9_miss_leaves_feature_unchanged [] nowhereFeature (by decide)

/-- C10: every feature whose probed name lower-cases to yarraville is styled
by the hardcoded price 2680 — bucket color #1a9850 — regardless of any joined
price, and its popup is the fixed template quoting $2,680. -/
theorem C10_yarraville_hardcoded (f : Feature)
    (h : jsLowerStr (suburbNameOf f.properties) = "yarraville") :
    featureStyle f =
      { fillColor := "#1a9850", weight := 1, opacity := 1, color := "white",
        dashArray := "3", fillOpacity := mkRat 7 10 } ∧
    (featureStyle f).fillColor = getColor (some (JSNum.num 2680)) ∧
    popupContent f = yarravillePopup := by
  have hs : featureStyle f =
      { fillColor := getColor (some (JSNum.num 2680)), weight := 1, opacity := 1,
        color := "white", dashArray := "3", fillOpacity := mkRat 7 10 } := by
    simp only [featureStyle]
    rw [h, if_pos rfl]
  have hc : getColor (some (JSNum.num 2680)) = "#1a9850" := by decide
  refine ⟨?_, ?_, ?_⟩
  · rw [hs, hc]
  · rw [hs, hc]
  · simp only [popupContent]
    rw [h, if_pos rfl]

/-- Witness for C10: a Yarraville feature carrying a joined price of 9999 is
still styled and popped up with the hardcoded 2680 data. -/
theorem C10_yarraville_hardcoded_witness :
    featureStyle yarraFeature =
      { fillColor := "#1a9850", weight := 1, opacity := 1, color := "white",
        dashArray := "3", fillOpacity := mkRat 7 10 } ∧
    (featureStyle yarraFeature).fillColor = getColor (some (JSNum.num 2680)) ∧
    popupContent yarraFeature = yarravillePopup :=
  C10_yarraville_hardcoded yarraFeature (by decide)

/-- Inserting a record registers both its primary normalized name and its
stripped alias, overwriting whatever held those keys before. -/
theorem insertRecord_self (m : SMap) (s : SuburbData) (k : String)
    (h : k = normName s.Suburb ∨ k = simpleName (normName s.Suburb)) :
    insertRecord m s k = some s := by
  simp only [insertRecord, mapInsert, ite_apply]
  rcases h with rfl | rfl
  · by_cases hne : simpleName (normName s.Suburb) ≠ normName s.Suburb
    · rw [if_pos hne]
      by_cases h2 : normName s.Suburb = simpleName (normName s.Suburb)
      · rw [if_pos h2]
      · rw [if_neg h2, if_pos rfl]
    · rw [if_neg hne, if_pos rfl]
  · by_cases hne : simpleName (normName s.Suburb) ≠ normName s.Suburb
    · rw [if_pos hne, if_pos rfl]
    · rw [if_neg hne, if_pos (not_not.mp hne)]

set_option maxHeartbeats 1600000 in
/-- C8: the bucketizer is monotonically non-decreasing in expense rank: for
positive prices p1 < p2 the color of p2 never ranks cheaper on the canonical
scale than the color of p1. -/
theorem C8_bucket_rank_monotone (p1 p2 : ℚ) (h1 : 0 < p1) (h12 : p1 < p2) :
    colorRank (getColor (some (JSNum.num p1))) ≤
      colorRank (getColor (some (JSNum.num p2))) := by
  have e1 : ¬(p1 = 0) := fun h => absurd (h ▸ h1) (lt_irrefl 0)
  have e2 : ¬(p2 = 0) := fun h => absurd (h ▸ lt_trans h1 h12) (lt_irrefl 0)
  rw [getColor_num p1 e1, getColor_num p2 e2]
  split_ifs <;> first | decide | (exfalso; linarith)

/-- Witness for C8 at the concrete pair 100 < 5000. -/
theorem C8_bucket_rank_monotone_witness :
    colorRank (getColor (some (JSNum.num 100))) ≤
      colorRank (getColor (some (JSNum.num 5000))) :=
  C8_bucket_rank_monotone 100 5000 (by norm_num) (by norm_num)

/-- C6 counterexample: the stripped alias of the later record North Melbourne
overwrites the primary-name entry of the earlier record Melbourne, so looking
up the primary key "melbourne" returns the other record. -/
theorem C6_counterexample_alias_overwrites_primary :
    buildSuburbMap [melbRec, northMelbRec] "melbourne" = some northMelbRec ∧
    northMelbRec ≠ melbRec := by decide

/-- C6 amended: alias registration is unconditional, so the final binding of
any key is simply the last insertion for that key in source order — the keys
of the last record, primary or stripped alias, always win, even over an
earlier record's primary entry. -/
theorem C6_last_insertion_wins (data : List SuburbData) (s : SuburbData)
    (k : String) (h : k = normName s.Suburb ∨ k = simpleName (normName s.Suburb)) :
    buildSuburbMap (data ++ [s]) k = some s := by
  unfold buildSuburbMap
  rw [List.foldl_append, List.foldl_cons, List.foldl_nil]
  exact insertRecord_self _ s k h

/-- Witness for C6 on the Melbourne / North Melbourne pair. -/
theorem C6_last_insertion_wins_witness :
    buildSuburbMap ([melbRec] ++ [northMelbRec]) "melbourne" = some northMelbRec :=
  C6_last_insertion_wins [melbRec] northMelbRec "melbourne" (Or.inr (by decide))

/-- C3 counterexample: a geometry named North Melbourne joined against the
single price record Melbourne receives no price at all, although the claim
promises it the record's 12500. -/
theorem C3_counterexample_no_geometry_side_fallback :
    extractPrices (joinAll [melbRec] [northMelbFeature]) = [none] ∧
    (none : Option JSNum) ≠ some (JSNum.num 12500) := by decide

/-- C3 amended: the merge performs exactly one lookup, of the normalized
geometry name; when that key misses, the feature is left alone even if the
stripped form of its name is present in the map. Stripped aliases come from
the price-record side, so a geometry named Melbourne does match a price
record named North Melbourne. -/
theorem C3_single_lookup_only :
    (∀ (m : SMap) (f : Feature), m (lookupKeyOf f) = none → mergeFeature m f = f) ∧
    suburbMapFull [melbRec] (simpleName (lookupKeyOf northMelbFeature)) = some melbRec ∧
    mergeFeature (suburbMapFull [melbRec]) northMelbFeature = northMelbFeature ∧
    extractPrices (joinAll [northMelbRec] [melbFeature]) = [some (JSNum.num 9000)] := by
  refine ⟨?_, by decide, by decide, by decide⟩
  intro m f h
  unfold mergeFeature
  rw [h]

/-- Witness for C3 with an empty lookup map. -/
theorem C3_single_lookup_only_witness :
    mergeFeature (suburbMapFull []) melbFeature = melbFeature :=
  C3_single_lookup_only.1 (suburbMapFull []) melbFeature (by decide)

/-- C1 counterexample: joining a Richmond geometry with a Richmond record
whose price string is empty attaches a price field equal to 0. -/
theorem C1_counterexample_zero_price_attached :
    extractPrices (joinAll [richEmptyRec] [richFeature]) = [some (JSNum.num 0)] := by decide

/-- C1 amended: after the Joiner runs on geometries that carry no price
field, every output geometry carries either no price field (miss), or a
parsed price that is a natural number — possibly 0, from an empty price
string — or NaN, from a digit-free price string; zero and NaN values can be
attached and are left to downstream truthiness checks to treat as no data. -/
theorem C1_joined_price_is_nat_or_nan (data : List SuburbData)
    (feats : List Feature) (f : Feature)
    (hf : ∀ g ∈ feats, g.properties.price_sqm = none)
    (hmem : f ∈ joinAll data feats) :
    f.properties.price_sqm = none ∨
    f.properties.price_sqm = some JSNum.nan ∨
    ∃ n : ℕ, f.properties.price_sqm = some (JSNum.num (n : ℚ)) := by
  unfold joinAll at hmem
  rcases List.mem_map.mp hmem with ⟨g, hg, rfl⟩
  unfold mergeFeature
  cases hm : suburbMapFull data (lookupKeyOf g) with
  | none => exact Or.inl (hf g hg)
  | some s =>
    unfold attachRecord
    by_cases he : s.sqm = ""
    · refine Or.inr (Or.inr ⟨0, ?_⟩)
      simp [parsePriceField, he]
    · by_cases hd : (digitsOnly s.sqm).data = []
      · refine Or.inr (Or.inl ?_)
        simp [parsePriceField, parseIntOfDigits, he, hd]
      · refine Or.inr (Or.inr ⟨digitsVal (digitsOnly s.sqm).data, ?_⟩)
        simp [parsePriceField, parseIntOfDigits, he, hd]

/-- Witness for C1 on the empty-price Richmond join. -/
theorem C1_joined_price_is_nat_or_nan_witness :
    (mergeFeature (suburbMapFull [richEmptyRec]) richFeature).properties.price_sqm = none ∨
    (mergeFeature (suburbMapFull [richEmptyRec]) richFeature).properties.price_sqm =
      some JSNum.nan ∨
    ∃ n : ℕ, (mergeFeature (suburbMapFull [richEmptyRec]) richFeature).properties.price_sqm =
      some (JSNum.num (n : ℚ)) :=
  C1_joined_price_is_nat_or_nan [richEmptyRec] [richFeature]
    (mergeFeature (suburbMapFull [richEmptyRec]) richFeature) (by decide) (by decide)

/-- C4 counterexample: the code strips the decimal point too — replace
removes every non-digit — so on "7.5" it parses 75, not the 7.5 promised by
the keep-digits-and-dots description. -/
theorem C4_counterexample_decimal_point_stripped :
    parsePriceField "7.5" = JSNum.num 75 ∧
    specParsePrice "7.5" = JSNum.num (mkRat 15 2) ∧
    parsePriceField "7.5" ≠ specParsePrice "7.5" := by decide

/-- C4 amended: price parsing strips every character that is not a digit
(including decimal points) and parses the remainder as a base-10 integer;
parsePrice of "$7,500" is 7500, and the empty and all-non-digit strings
parse to values the bucketizer maps to the sentinel; whenever the parsed
price escapes the sentinel it is a strictly positive integer. -/
theorem C4_parse_digits_only :
    parsePriceField "$7,500" = JSNum.num 7500 ∧
    getColor (some (parsePriceField "")) = "#cccccc" ∧
    getColor (some (parsePriceField "N/A")) = "#cccccc" ∧
    (∀ s : String, getColor (some (parsePriceField s)) ≠ "#cccccc" →
      ∃ n : ℕ, 0 < n ∧ parsePriceField s = JSNum.num (n : ℚ)) := by
  refine ⟨by decide, by decide, by decide, ?_⟩
  intro s hs
  by_cases he : s = ""
  · subst he
    exact absurd (by decide) hs
  · unfold parsePriceField at hs ⊢
    rw [if_neg he] at hs ⊢
    unfold parseIntOfDigits at hs ⊢
    by_cases hd : (digitsOnly s).data = []
    · rw [if_pos hd] at hs
      exact absurd rfl hs
    · rw [if_neg hd] at hs ⊢
      refine ⟨digitsVal (digitsOnly s).data, ?_, rfl⟩
      rcases Nat.eq_zero_or_pos (digitsVal (digitsOnly s).data) with hz | hp
      · exfalso
        apply hs
        rw [hz]
        simp [getColor]
      · exact hp

/-- Witness for C4 at the concrete string dollar-7,500. -/
theorem C4_parse_digits_only_witness :
    ∃ n : ℕ, 0 < n ∧ parsePriceField "$7,500" = JSNum.num (n : ℚ) :=
  C4_parse_digits_only.2.2.2 "$7,500" (by decide)

end MelbourneSQM
